import Mathlib

/-!
A shallow embedding of the notevil sandboxed evaluator (src/index.js) and
proofs checking the natural-language specification against it.

The evaluator `walk` in src/index.js is a recursive tree walker over
esprima syntax nodes, driven against a scope chain of mutable frames
linked by prototype delegation.  We embed:

  * syntax nodes as the inductive `Ast` (only the node kinds that appear
    in the source's switch; array/object literals and `new`, which
    delegate to the out-of-src primitives library, are omitted from the
    modelled fragment);
  * guest values as `Value` (host numbers are modelled on the integer
    fragment: the claims under check exercise no float-only behaviour);
  * objects and scope frames uniformly as `Obj` (a property list with
    per-key enumerability plus an optional prototype/parent link) living
    in a `Heap` addressed by `Nat` references, as frames and objects are
    one and the same in the source;
  * evaluation as a fuel-indexed state-passing function; the extra
    outcome `oof` (out of fuel) is the embedding's artifact for a
    computation that has not finished and propagates through everything.

Host exceptions (the guest-catchable channel) are `Outcome.thrown`;
control signals (the source's ReturnValue struct) are `ret`, `brk`,
`cont`.  The two modules notevil requires that are not part of src/
(lib/infinite-checker and lib/primitives) are modelled from the spec and
marked as such in their doc comments.
-/

set_option maxHeartbeats 1000000

namespace NotEvil

/-- Literal values as produced by the parser (esprima Literal nodes hold
primitives only). -/
inductive Lit where
  | num (n : Int)
  | str (s : String)
  | bool (b : Bool)
  | null
  deriving Repr, DecidableEq

/-- Syntax nodes: one constructor per node kind the source's `walk`
dispatches on.  `member` is dot-style access (static name), `memberC`
bracket-style (computed).  `unsupported` stands for any node kind outside
the switch (which falls to the `default:` branch in the source).
A for-in left-hand side is either an identifier or a declaration, kept as
a plain `Ast` exactly as the source keeps `node.left`. -/
inductive Ast where
  | program (body : List Ast)
  | block (body : List Ast)
  | emptyStmt
  | funcDecl (name : String) (params : List String) (fbody : Ast)
  | funcExpr (params : List String) (fbody : Ast)
  | retStmt (arg : Option Ast)
  | brkStmt
  | contStmt
  | exprStmt (e : Ast)
  | assignExpr (op : String) (left : Ast) (right : Ast)
  | updateExpr (op : String) (arg : Ast)
  | varDecl (decls : List (String × Option Ast))
  | ifStmt (test : Ast) (cons : Ast) (alt : Option Ast)
  | forStmt (finit ftest fupdate : Option Ast) (fbody : Ast)
  | forInStmt (left : Ast) (right : Ast) (fbody : Ast)
  | whileStmt (test : Ast) (wbody : Ast)
  | tryStmt (tblock : Ast) (handler : Option (String × Ast)) (finalizer : Option Ast)
  | lit (v : Lit)
  | unaryExpr (op : String) (arg : Ast)
  | binaryExpr (op : String) (l : Ast) (r : Ast)
  | logicalExpr (op : String) (l : Ast) (r : Ast)
  | thisExpr
  | ident (name : String)
  | callExpr (callee : Ast) (args : List Ast)
  | member (obj : Ast) (propName : String)
  | memberC (obj : Ast) (propExpr : Ast)
  | condExpr (test : Ast) (cons : Ast) (alt : Ast)
  | unsupported (kind : String)
  deriving Repr

/-- Guest values.  `vRef` is a heap reference (objects, arrays, frames);
`vClosure` carries parameter names, body and the captured frame reference,
exactly the triple the source's `getFunction` closes over.  `vNaN` is the
not-a-number value of the host's number type.  `vErr` models host Error
values by message (error object identity is not needed by any claim). -/
inductive Value where
  | vUndefined
  | vNull
  | vBool (b : Bool)
  | vNum (n : Int)
  | vNaN
  | vStr (s : String)
  | vRef (r : Nat)
  | vClosure (params : List String) (fbody : Ast) (scope : Nat)
  | vErr (msg : String)
  deriving Repr

/-- One property slot of an object/frame: name, value and the
enumerability flag the source's guard consults via
`propertyIsEnumerable`. -/
structure Prp where
  name : String
  value : Value
  enum : Bool
  deriving Repr

/-- An object (equally: a scope frame): ordered own properties plus the
prototype link (the parent frame for frames, per Object.create in the
source). -/
structure Obj where
  props : List Prp
  proto : Option Nat
  deriving Repr

/-- The store of all objects/frames, addressed by `Nat` references. -/
abbrev Heap := List Obj

/-- Dereference; a dangling reference yields an empty rootless object
(modelled heaps keep references valid). -/
def getObj (h : Heap) (r : Nat) : Obj := h.getD r ⟨[], none⟩

def setObj (h : Heap) (r : Nat) (o : Obj) : Heap := h.set r o

/-- Allocate a fresh object, returning the new heap and its reference. -/
def alloc (h : Heap) (o : Obj) : Heap × Nat := (h ++ [o], h.length)

/-- First own property with the given name. -/
def getOwn : List Prp → String → Option Prp
  | [], _ => none
  | p :: ps, k => if p.name = k then some p else getOwn ps k

/-- Host assignment to an own property: update in place keeping the
enumerability flag, else append a fresh enumerable entry (property
creation via assignment is enumerable in the host). -/
def setOwn : List Prp → String → Value → List Prp
  | [], k, v => [⟨k, v, true⟩]
  | p :: ps, k, v => if p.name = k then ⟨k, v, p.enum⟩ :: ps else p :: setOwn ps k v

/-- `Object.prototype.hasOwnProperty.call(object, key)` against the heap. -/
def hasOwnProperty (h : Heap) (r : Nat) (k : String) : Bool :=
  (getOwn (getObj h r).props k).isSome

/-- `Object.prototype.propertyIsEnumerable.call(object, key)`. -/
def propertyIsEnumerable (h : Heap) (r : Nat) (k : String) : Bool :=
  match getOwn (getObj h r).props k with
  | some p => p.enum
  | none => false

/-- Own-property test on an arbitrary value: primitives and closures have
no modelled own entries (function-object own slots are outside the
modelled domain and never exercised). -/
def valueHasOwn (h : Heap) (v : Value) (k : String) : Bool :=
  match v with
  | .vRef r => hasOwnProperty h r k
  | _ => false

def valueIsEnum (h : Heap) (v : Value) (k : String) : Bool :=
  match v with
  | .vRef r => propertyIsEnumerable h r k
  | _ => false

/-- Write an own property of a heap object. -/
def writeProp (h : Heap) (r : Nat) (k : String) (v : Value) : Heap :=
  setObj h r { getObj h r with props := setOwn (getObj h r).props k v }

/-- Property read through the prototype chain (host `object[key]`),
fuel-bounded (modelled chains are finite). -/
def getProp : Nat → Heap → Nat → String → Value
  | fuel, h, r, k =>
    match getOwn (getObj h r).props k with
    | some p => p.value
    | none =>
      match (getObj h r).proto, fuel with
      | some pr, fuel + 1 => getProp fuel h pr k
      | _, _ => .vUndefined

/-- Host truthiness (ToBoolean). -/
def truthy : Value → Bool
  | .vUndefined => false
  | .vNull => false
  | .vNaN => false
  | .vBool b => b
  | .vNum n => n != 0
  | .vStr s => s != ""
  | _ => true

/-- Host ToString on the modelled fragment (containers and closures
stringify via host mechanisms not needed by any claim; the plain-object
default is used). -/
def jsToString : Value → String
  | .vUndefined => "undefined"
  | .vNull => "null"
  | .vBool b => if b then "true" else "false"
  | .vNum n => toString n
  | .vNaN => "NaN"
  | .vStr s => s
  | .vRef _ => "[object Object]"
  | .vClosure _ _ _ => "function"
  | .vErr m => m

/-- Decimal digit value of a character, if any. -/
def digitVal (c : Char) : Option Nat :=
  if 48 ≤ c.toNat && c.toNat ≤ 57 then some (c.toNat - 48) else none

def digitsToNat : List Char → Nat → Option Nat
  | [], acc => some acc
  | c :: cs, acc =>
    match digitVal c with
    | some d => digitsToNat cs (acc * 10 + d)
    | none => none

/-- Parse an optionally signed decimal integer numeral. -/
def parseIntStr (s : String) : Option Int :=
  match s.data with
  | [] => none
  | c :: cs =>
    if c = '-' then
      match cs with
      | [] => none
      | _ => (digitsToNat cs 0).map (fun n => -(n : Int))
    else if c = '+' then
      match cs with
      | [] => none
      | _ => (digitsToNat cs 0).map (fun n => (n : Int))
    else (digitsToNat (c :: cs) 0).map (fun n => (n : Int))

/-- Host ToNumber on the modelled fragment, yielding `vNum` or `vNaN`.
String numerals are modelled for decimal integers only (the claims use
no other numeric string forms). -/
def toNumV : Value → Value
  | .vUndefined => .vNaN
  | .vNull => .vNum 0
  | .vBool b => .vNum (if b then 1 else 0)
  | .vNum n => .vNum n
  | .vNaN => .vNaN
  | .vStr s => if s = "" then .vNum 0 else match parseIntStr s with
      | some n => .vNum n
      | none => .vNaN
  | .vRef _ => .vNaN
  | .vClosure _ _ _ => .vNaN
  | .vErr _ => .vNaN

/-- Host ToPrimitive for the operand positions of `+` (plain objects and
closures stringify; claims exercise only primitive operands). -/
def toPrimV : Value → Value
  | .vRef _ => .vStr "[object Object]"
  | .vClosure _ _ _ => .vStr "function"
  | .vErr m => .vStr m
  | v => v

def isStrV : Value → Bool
  | .vStr _ => true
  | _ => false

/-- Numeric binary operation with NaN propagation. -/
def numBin (f : Int → Int → Int) (a b : Value) : Value :=
  match toNumV a, toNumV b with
  | .vNum x, .vNum y => .vNum (f x y)
  | _, _ => .vNaN

/-- Host `+`: string concatenation when either ToPrimitive result is a
string, numeric addition otherwise. -/
def jsAdd (a b : Value) : Value :=
  let a' := toPrimV a
  let b' := toPrimV b
  if isStrV a' || isStrV b' then .vStr (jsToString a' ++ jsToString b')
  else numBin (· + ·) a' b'

/-- Host ToInt32. -/
def toInt32 (v : Value) : Int :=
  match toNumV v with
  | .vNum n =>
    let m := n.emod 4294967296
    if m ≥ 2147483648 then m - 4294967296 else m
  | _ => 0

def toUInt32N (v : Value) : Nat := ((toInt32 v).emod 4294967296).toNat

def ofUInt32 (u : Nat) : Value :=
  .vNum (if u ≥ 2147483648 then (u : Int) - 4294967296 else (u : Int))

/-- Host abstract relational comparison: string-vs-string is
lexicographic, otherwise numeric; `none` when a NaN is involved. -/
def jsLessOpt (a b : Value) : Option Bool :=
  match toPrimV a, toPrimV b with
  | .vStr x, .vStr y => some (decide (x < y))
  | x, y =>
    match toNumV x, toNumV y with
    | .vNum m, .vNum n => some (decide (m < n))
    | _, _ => none

/-- Host strict equality (`===`).  Closure and error object identity is
not tracked by the model; such comparisons (never exercised by the
claims) conservatively yield false. -/
def jsStrictEq : Value → Value → Bool
  | .vUndefined, .vUndefined => true
  | .vNull, .vNull => true
  | .vBool a, .vBool b => a == b
  | .vNum a, .vNum b => a == b
  | .vStr a, .vStr b => a == b
  | .vRef a, .vRef b => a == b
  | _, _ => false

/-- Host loose equality (`==`) on the modelled fragment: null/undefined
match each other, number-vs-string and boolean operands coerce through
ToNumber; object-vs-primitive coercion is outside the modelled domain
(and unexercised by the claims). -/
def jsLooseEq : Value → Value → Bool
  | .vNull, .vUndefined => true
  | .vUndefined, .vNull => true
  | .vNum a, .vStr s =>
    (match toNumV (.vStr s) with | .vNum b => a == b | _ => false)
  | .vStr s, .vNum b =>
    (match toNumV (.vStr s) with | .vNum a => a == b | _ => false)
  | .vBool a, .vBool b => a == b
  | .vBool a, .vNum n => (if a then (1 : Int) else 0) == n
  | .vNum n, .vBool b => n == (if b then (1 : Int) else 0)
  | .vBool a, .vStr s =>
    (match toNumV (.vStr s) with
     | .vNum m => (if a then (1 : Int) else 0) == m
     | _ => false)
  | .vStr s, .vBool b =>
    (match toNumV (.vStr s) with
     | .vNum m => m == (if b then (1 : Int) else 0)
     | _ => false)
  | a, b => jsStrictEq a b

/-- Host `typeof`. -/
def typeofStr : Value → String
  | .vUndefined => "undefined"
  | .vNull => "object"
  | .vBool _ => "boolean"
  | .vNum _ => "number"
  | .vNaN => "number"
  | .vStr _ => "string"
  | .vRef _ => "object"
  | .vClosure _ _ _ => "function"
  | .vErr _ => "object"

/-- Modelled from the spec (lib/primitives is not under src/): the
primitive check "classifies numeric/textual/boolean/null/undefined as
non-container".  As the host reports typeof null as object, the
library's classifier returns false for null; src/index.js depends on
this, since canSetProperty's explicit null fallback (src line 377)
would otherwise be dead code. -/
def isPrimative : Value → Bool
  | .vNum _ => true
  | .vNaN => true
  | .vStr _ => true
  | .vBool _ => true
  | .vUndefined => true
  | _ => false

/-- Modelled from the spec (lib/primitives is not under src/):
prototype-parent lookup "returns the next link in a value's delegation
chain, or none at the root".  For a heap object this is its prototype
link (the parent frame, for frames); the sandbox prototype substitutes
for primitives are outside the modelled domain. -/
def getPrototypeOf (h : Heap) (v : Value) : Value :=
  match v with
  | .vRef r =>
    match (getObj h r).proto with
    | some p => .vRef p
    | none => .vNull
  | _ => .vNull

/-- The host loose comparison `object != null` used by canSetProperty:
false exactly for null and undefined. -/
def looseNeqNull : Value → Bool
  | .vNull => false
  | .vUndefined => false
  | _ => true

/-- src/index.js objectForKey (lines 343-350): walk the prototype chain
to the first object that owns `key` as its own property; if the chain
runs out, the last object of the chain (the one whose prototype link is
falsy) is returned.  Fuel-bounded embedding of the source's unbounded
recursion (modelled chains are finite). -/
def objectForKey : Nat → Heap → Value → String → Value
  | 0, _, v, _ => v
  | fuel + 1, h, v, key =>
    let proto := getPrototypeOf h v
    if truthy proto = false || valueHasOwn h v key then v
    else objectForKey fuel h proto key

/-- src/index.js canSetProperty (lines 362-380): write permission is
denied for the prototype-link name and for primitive receivers; an own
occurrence decides by its enumerability; otherwise the check recurses
into the prototype chain, and a chain exhausted to null grants the
write. -/
def canSetProperty : Nat → Heap → Value → String → Bool
  | 0, _, _, _ => false
  | fuel + 1, h, object, property =>
    if property = "__proto__" || isPrimative object then false
    else if looseNeqNull object then
      if valueHasOwn h object property then valueIsEnum h object property
      else canSetProperty fuel h (getPrototypeOf h object) property
    else true

/-- Modelled from the spec (lib/infinite-checker is not under src/): the
loop guard's failure on exceeding the ceiling, raised through the host
error channel (§4.5: "exceeding the ceiling raises a fatal,
non-recoverable failure"). -/
def loopErr : Value := .vErr "Infinite loop detected - reached max iterations"

/-- src/index.js unsupportedExpression (lines 337-340) throws this host
error. -/
def unsupportedErr : Value := .vErr "Unsupported expression"

/-- The source's module-level iteration ceiling (src line 12).  The
evaluator below threads the ceiling as an explicit parameter `M` so that
theorems can inject a small ceiling, as §8 of the spec does. -/
def maxIterations : Nat := 1000000

/-- Evaluation outcomes: a normal value, the three control signals of the
source's ReturnValue struct, a host exception in flight, or the
embedding's out-of-fuel marker. -/
inductive Outcome where
  | ok (v : Value)
  | ret (v : Value)
  | brk
  | cont
  | thrown (e : Value)
  | oof
  deriving Repr

/-- The plain value of an outcome, for the expression positions where the
source uses a walk result directly as a value.  Expressions never
produce control signals in parser-produced trees; a signal here is
coerced to undefined (outside the modelled domain). -/
def outVal : Outcome → Value
  | .ok v => v
  | .ret v => v
  | _ => .vUndefined

/-- src/index.js finalValue (lines 408-413): unwrap a ReturnValue to its
payload (break and continue carry undefined). -/
def finalValue : Outcome → Outcome
  | .ret v => .ok v
  | .brk => .ok .vUndefined
  | .cont => .ok .vUndefined
  | o => o

/-- Truthiness of a walk result in a host condition position
(`if (walk(node.test))`): a ReturnValue instance is an object and hence
truthy. -/
def outTruthy : Outcome → Bool
  | .ok v => truthy v
  | .ret _ => true
  | .brk => true
  | .cont => true
  | _ => false

/-- The operator table of the source's BinaryExpression case (lines
227-249): note `==` is evaluated with the host's strict equality while
`!=` uses the host's loose inequality.  `instanceof` against the model's
closures is false (nothing is ever constructed in the modelled fragment),
and against a non-callable throws as in the host. -/
def applyBinary (op : String) (l r : Value) : Outcome :=
  match op with
  | "==" => .ok (.vBool (jsStrictEq l r))
  | "===" => .ok (.vBool (jsStrictEq l r))
  | "!=" => .ok (.vBool (!jsLooseEq l r))
  | "!==" => .ok (.vBool (!jsStrictEq l r))
  | "+" => .ok (jsAdd l r)
  | "-" => .ok (numBin (· - ·) l r)
  | "*" => .ok (numBin (· * ·) l r)
  | "/" => .ok (numBin (· / ·) l r)
  | "%" => .ok (numBin (· % ·) l r)
  | "<" => .ok (.vBool ((jsLessOpt l r).getD false))
  | "<=" => .ok (.vBool (match jsLessOpt r l with | some false => true | _ => false))
  | ">" => .ok (.vBool ((jsLessOpt r l).getD false))
  | ">=" => .ok (.vBool (match jsLessOpt l r with | some false => true | _ => false))
  | "|" => .ok (ofUInt32 (Nat.lor (toUInt32N l) (toUInt32N r)))
  | "&" => .ok (ofUInt32 (Nat.land (toUInt32N l) (toUInt32N r)))
  | "^" => .ok (ofUInt32 (Nat.xor (toUInt32N l) (toUInt32N r)))
  | "instanceof" =>
    match r with
    | .vClosure _ _ _ => .ok (.vBool false)
    | _ => .thrown (.vErr "Right-hand side of instanceof is not callable")
  | _ => .thrown unsupportedErr

/-- The operator table of the source's UnaryExpression case (lines
192-201). -/
def applyUnary (op : String) (v : Value) : Outcome :=
  match op with
  | "+" => .ok (toNumV v)
  | "-" => .ok (numBin (fun _ b => -b) (.vNum 0) v)
  | "~" => .ok (.vNum (-(toInt32 v) - 1))
  | "!" => .ok (.vBool (!truthy v))
  | "typeof" => .ok (.vStr (typeofStr v))
  | _ => .thrown unsupportedErr

/-- Member read `object[prop]` after the guard's container resolution:
heap objects read through the prototype chain; null and undefined
receivers throw the host TypeError; other primitives would be redirected
by the guard to the sandbox's substitute containers, whose contents are
outside the modelled domain (reads yield undefined, as do reads from
function objects); the checkValue substitution of the host Function
constructor (src lines 296-301) is unreachable in the modelled value
domain. -/
def memberRead (fuel : Nat) (h : Heap) (v : Value) (k : String) : Outcome :=
  match v with
  | .vRef r => .ok (getProp fuel h r k)
  | .vNull => .thrown (.vErr "Cannot read properties of null")
  | .vUndefined => .thrown (.vErr "Cannot read properties of undefined")
  | _ => .ok .vUndefined

/-- Read the current value of `object[name]` for the compound-assignment
and update operators of setValue (a host read walks the chain). -/
def readForUpdate (fuel : Nat) (h : Heap) (v : Value) (k : String) : Value :=
  match v with
  | .vRef r => getProp fuel h r k
  | _ => .vUndefined

/-- Host `object[name] = value` at the write sites of setValue (the
guard has already granted the write): heap objects take an own-property
write; null throws the host TypeError after the right-hand side was
evaluated (ES5 PutValue order); writes through function and error
objects store on host objects outside the modelled domain and are not
exercised by any claim. -/
def writeValue (h : Heap) (object : Value) (k : String) (v : Value) : Heap × Outcome :=
  match object with
  | .vRef r => (writeProp h r k v, .ok v)
  | .vNull => (h, .thrown (.vErr "Cannot set properties of null"))
  | .vUndefined => (h, .thrown (.vErr "Cannot set properties of undefined"))
  | _ => (h, .ok v)

/-- Enumerable key list of a value for the host for-in loop: own and
inherited enumerable names in chain order, names shadowed by an earlier
object in the chain skipped.  Primitive values enumerate nothing in the
modelled fragment. -/
def enumKeysAux : Nat → Heap → Nat → List String → List String
  | 0, _, _, _ => []
  | fuel + 1, h, r, seen =>
    let o := getObj h r
    let here := (o.props.filter (fun p => p.enum && !(seen.contains p.name))).map Prp.name
    let seen' := seen ++ o.props.map Prp.name
    match o.proto with
    | some pr => here ++ enumKeysAux fuel h pr seen'
    | none => here

def enumKeys (h : Heap) (v : Value) : List String :=
  match v with
  | .vRef r => enumKeysAux (h.length + 1) h r []
  | _ => []

/-- The call-frame construction of src getFunction (lines 384-399): a
fresh frame parented to the captured scope, `this` bound to the receiver
or, when the host would supply its global object (invocation without a
receiver), to null; an `arguments` object with index entries and a
non-enumerable length; then each declared parameter bound to its
positional argument, arguments beyond the parameter list dropped and
parameters beyond the argument list left unbound. -/
def bindParams : Heap → Nat → List String → List Value → Heap
  | h, _, _, [] => h
  | h, _, [], _ :: _ => h
  | h, r, p :: ps, a :: as' =>
    bindParams (if p = "" then h else writeProp h r p a) r ps as'

def argumentsObj (args : List Value) : Obj :=
  { props :=
      (args.enum.map (fun pr => (⟨toString pr.1, pr.2, true⟩ : Prp))) ++
        [⟨"length", .vNum args.length, false⟩]
    proto := none }

def callFrame (h : Heap) (captured : Nat) (receiver : Option Value)
    (args : List Value) (params : List String) : Heap × Nat :=
  let (h, r) := alloc h { props := [], proto := some captured }
  let thisV := match receiver with
    | none => Value.vNull
    | some v => v
  let h := writeProp h r "this" thisV
  let (h, ar) := alloc h (argumentsObj args)
  let h := writeProp h r "arguments" (.vRef ar)
  let h := bindParams h r params args
  (h, r)

/-- Result of evaluating an argument list: all values, or the outcome
that aborted the evaluation. -/
inductive ArgRes where
  | vals (vs : List Value)
  | stop (o : Outcome)
  deriving Repr

/-- Value of a parser literal node. -/
def litVal : Lit → Value
  | .num n => .vNum n
  | .str s => .vStr s
  | .bool b => .vBool b
  | .null => .vNull

mutual

/-- src/index.js walk (lines 69-293): the recursive dispatcher.  `M` is
the loop-guard ceiling, `fuel` the embedding's step bound, `ctx` the
current frame reference. -/
def walk (M : Nat) : Nat → Heap → Nat → Ast → Heap × Outcome
  | 0, h, _, _ => (h, .oof)
  | fuel + 1, h, ctx, node =>
    match node with
    | .program body => walkAll M fuel h ctx body .vNull
    | .block body => walkAll M fuel h ctx body .vNull
    | .funcDecl name params fbody =>
      let v := Value.vClosure params fbody ctx
      (writeProp h ctx name v, .ok v)
    | .funcExpr params fbody => (h, .ok (.vClosure params fbody ctx))
    | .retStmt arg =>
      let (h, r) := walkOpt M fuel h ctx arg
      match r with
      | .thrown e => (h, .thrown e)
      | .oof => (h, .oof)
      | r => (h, .ret (outVal r))
    | .brkStmt => (h, .brk)
    | .contStmt => (h, .cont)
    | .exprStmt e => walk M fuel h ctx e
    | .assignExpr op left right => setValue M fuel h ctx left (some right) (some op)
    | .updateExpr op arg => setValue M fuel h ctx arg none (some op)
    | .varDecl decls => runDecls M fuel h ctx decls
    | .ifStmt test cons alt =>
      let (h, tr) := walk M fuel h ctx test
      match tr with
      | .thrown e => (h, .thrown e)
      | .oof => (h, .oof)
      | tr =>
        if outTruthy tr then walk M fuel h ctx cons
        else
          match alt with
          | some a => walk M fuel h ctx a
          | none =>
            -- The source's IfStatement case has no final break and falls
            -- through into the ForStatement case operating on the same
            -- node: init, update and body are undefined there, and the
            -- for condition re-walks this statement's own test
            -- (src lines 117-138).
            runFor M fuel h ctx (some test) none none 0
    | .forStmt finit ftest fupdate fbody =>
      let (h, ir) := walkOpt M fuel h ctx finit
      match ir with
      | .thrown e => (h, .thrown e)
      | .oof => (h, .oof)
      | _ => runFor M fuel h ctx ftest fupdate (some fbody) 0
    | .forInStmt left right fbody =>
      let (h, rv) := walk M fuel h ctx right
      match rv with
      | .thrown e => (h, .thrown e)
      | .oof => (h, .oof)
      | rv =>
        match left with
        | .varDecl ds =>
          let (h, dr) := walk M fuel h ctx (.varDecl ds)
          match dr with
          | .thrown e => (h, .thrown e)
          | .oof => (h, .oof)
          | _ =>
            let nm := (ds.head?.map Prod.fst).getD ""
            runForIn M fuel h ctx (.ident nm) (enumKeys h (outVal rv)) fbody 0
        | l => runForIn M fuel h ctx l (enumKeys h (outVal rv)) fbody 0
    | .whileStmt test wbody => runWhile M fuel h ctx test wbody 0
    | .tryStmt tblock handler finalizer =>
      let (h, br) := walk M fuel h ctx tblock
      match br with
      | .oof => (h, .oof)
      | br =>
        let (h, hres) :=
          match br, handler with
          | .thrown e, some (p, hb) =>
            -- context[catchClause.param.name] = error (src line 179)
            let h := writeProp h ctx p e
            walk M fuel h ctx hb
          | _, _ => (h, Outcome.ok .vUndefined)
        match hres with
        | .oof => (h, .oof)
        | hres =>
          let (h, fres) := walkOpt M fuel h ctx finalizer
          match fres with
          | .oof => (h, .oof)
          | .thrown e => (h, .thrown e)
          | _ =>
            match hres with
            | .thrown e2 => (h, .thrown e2)
            | _ => (h, .ok .vUndefined)
    | .lit v => (h, .ok (litVal v))
    | .unaryExpr op arg =>
      let (h, r) := walk M fuel h ctx arg
      match r with
      | .thrown e => (h, .thrown e)
      | .oof => (h, .oof)
      | r => (h, applyUnary op (outVal r))
    | .binaryExpr op l r =>
      let (h, lr) := walk M fuel h ctx l
      match lr with
      | .thrown e => (h, .thrown e)
      | .oof => (h, .oof)
      | lr =>
        let (h, rr) := walk M fuel h ctx r
        match rr with
        | .thrown e => (h, .thrown e)
        | .oof => (h, .oof)
        | rr => (h, applyBinary op (outVal lr) (outVal rr))
    | .logicalExpr op l r =>
      match op with
      | "&&" =>
        let (h, lr) := walk M fuel h ctx l
        match lr with
        | .thrown e => (h, .thrown e)
        | .oof => (h, .oof)
        | lr => if outTruthy lr then walk M fuel h ctx r else (h, .ok (outVal lr))
      | "||" =>
        let (h, lr) := walk M fuel h ctx l
        match lr with
        | .thrown e => (h, .thrown e)
        | .oof => (h, .oof)
        | lr => if outTruthy lr then (h, .ok (outVal lr)) else walk M fuel h ctx r
      | _ => (h, .thrown unsupportedErr)
    | .thisExpr => (h, .ok (getProp fuel h ctx "this"))
    | .ident name => (h, .ok (getProp fuel h ctx name))
    | .callExpr callee cargs =>
      -- arguments first, then the callee, then (for member callees) the
      -- receiver expression a second time (src lines 264-274)
      let (h, ar) := walkArgs M fuel h ctx cargs
      match ar with
      | .stop o => (h, o)
      | .vals args =>
        let (h, tr) := walk M fuel h ctx callee
        match tr with
        | .thrown e => (h, .thrown e)
        | .oof => (h, .oof)
        | tr =>
          let (h, recv) :=
            match callee with
            | .member objE _ =>
              let (h, rv) := walk M fuel h ctx objE
              (h, some rv)
            | .memberC objE _ =>
              let (h, rv) := walk M fuel h ctx objE
              (h, some rv)
            | _ => (h, none)
          match recv with
          | some (Outcome.thrown e) => (h, .thrown e)
          | some Outcome.oof => (h, .oof)
          | recv =>
            match outVal tr with
            | .vClosure params fbody captured =>
              let (h, fr) := callFrame h captured (recv.map outVal) args params
              let (h, res) := walk M fuel h fr fbody
              match res with
              | .thrown e => (h, .thrown e)
              | .oof => (h, .oof)
              | .ret v => (h, .ok v)
              | _ => (h, .ok .vUndefined)
            | _ => (h, .thrown (.vErr "target.apply is not a function"))
    | .member objE pName =>
      let (h, ov) := walk M fuel h ctx objE
      match ov with
      | .thrown e => (h, .thrown e)
      | .oof => (h, .oof)
      | ov => (h, memberRead fuel h (outVal ov) pName)
    | .memberC objE pE =>
      let (h, ov) := walk M fuel h ctx objE
      match ov with
      | .thrown e => (h, .thrown e)
      | .oof => (h, .oof)
      | ov =>
        let (h, pv) := walk M fuel h ctx pE
        match pv with
        | .thrown e => (h, .thrown e)
        | .oof => (h, .oof)
        | pv => (h, memberRead fuel h (outVal ov) (jsToString (outVal pv)))
    | .condExpr test cons alt =>
      let (h, tr) := walk M fuel h ctx test
      match tr with
      | .thrown e => (h, .thrown e)
      | .oof => (h, .oof)
      | tr => if outTruthy tr then walk M fuel h ctx cons else walk M fuel h ctx alt
    -- EmptyStatement has no case in the source switch (walkAll skips it,
    -- but a directly walked one falls to default), and the default
    -- branch throws the unsupported-construct error (src lines 290-291).
    | .emptyStmt => (h, .thrown unsupportedErr)
    | .unsupported _ => (h, .thrown unsupportedErr)
  termination_by structural fuel _ _ _ => fuel

/-- `walk(node)` where the node may be absent: the source returns
undefined immediately for a missing node (src line 70). -/
def walkOpt (M : Nat) : Nat → Heap → Nat → Option Ast → Heap × Outcome
  | _, h, _, none => (h, .ok .vUndefined)
  | 0, h, _, some _ => (h, .oof)
  | fuel + 1, h, ctx, some n => walk M fuel h ctx n
  termination_by structural fuel _ _ _ => fuel

/-- src walkAll (lines 53-66): evaluate statements in order, skipping
empty statements, stopping at the first ReturnValue; otherwise the last
evaluated value (initially null) is the result. -/
def walkAll (M : Nat) : Nat → Heap → Nat → List Ast → Value → Heap × Outcome
  | _, h, _, [], acc => (h, .ok acc)
  | 0, h, _, _ :: _, _ => (h, .oof)
  | fuel + 1, h, ctx, n :: ns, acc =>
    match n with
    | .emptyStmt => walkAll M fuel h ctx ns acc
    | n =>
      let (h, r) := walk M fuel h ctx n
      match r with
      | .ok v => walkAll M fuel h ctx ns v
      | r => (h, r)
  termination_by structural fuel _ _ _ _ => fuel

/-- Evaluation of a call's argument list in order (src lines 265-267). -/
def walkArgs (M : Nat) : Nat → Heap → Nat → List Ast → Heap × ArgRes
  | _, h, _, [] => (h, .vals [])
  | 0, h, _, _ :: _ => (h, .stop .oof)
  | fuel + 1, h, ctx, e :: es =>
    let (h, r) := walk M fuel h ctx e
    match r with
    | .thrown x => (h, .stop (.thrown x))
    | .oof => (h, .stop .oof)
    | r =>
      match walkArgs M fuel h ctx es with
      | (h, .vals vs) => (h, .vals (outVal r :: vs))
      | s => s
  termination_by structural fuel _ _ _ => fuel

/-- The VariableDeclaration case (src lines 107-115): each initializer is
walked eagerly and bound as an own entry of the current frame; a missing
initializer binds an explicit undefined. -/
def runDecls (M : Nat) : Nat → Heap → Nat → List (String × Option Ast) → Heap × Outcome
  | _, h, _, [] => (h, .ok .vUndefined)
  | 0, h, _, _ :: _ => (h, .oof)
  | fuel + 1, h, ctx, (nm, ini) :: ds =>
    match ini with
    | none => runDecls M fuel (writeProp h ctx nm .vUndefined) ctx ds
    | some e =>
      let (h, r) := walk M fuel h ctx e
      match r with
      | .thrown x => (h, .thrown x)
      | .oof => (h, .oof)
      | r => runDecls M fuel (writeProp h ctx nm (outVal r)) ctx ds
  termination_by structural fuel _ _ _ => fuel

/-- The loop of the ForStatement case (src lines 124-138), also entered
by the IfStatement fall-through.  The body's control signal is inspected
before the guard check, and the host continue statement jumps straight
to the update clause, skipping infinite.check(). -/
def runFor (M : Nat) :
    Nat → Heap → Nat → Option Ast → Option Ast → Option Ast → Nat → Heap × Outcome
  | 0, h, _, _, _, _, _ => (h, .oof)
  | fuel + 1, h, ctx, ftest, fupdate, fbody, counter =>
    let (h, tr) := walkOpt M fuel h ctx ftest
    match tr with
    | .thrown e => (h, .thrown e)
    | .oof => (h, .oof)
    | tr =>
      if outTruthy tr = false then (h, .ok .vUndefined)
      else
        let (h, br) := walkOpt M fuel h ctx fbody
        match br with
        | .thrown e => (h, .thrown e)
        | .oof => (h, .oof)
        | .cont =>
          let (h, ur) := walkOpt M fuel h ctx fupdate
          match ur with
          | .thrown e => (h, .thrown e)
          | .oof => (h, .oof)
          | _ => runFor M fuel h ctx ftest fupdate fbody counter
        | .brk => (h, .ok .vUndefined)
        | .ret v => (h, .ret v)
        | _ =>
          if counter + 1 > M then (h, .thrown loopErr)
          else
            let (h, ur) := walkOpt M fuel h ctx fupdate
            match ur with
            | .thrown e => (h, .thrown e)
            | .oof => (h, .oof)
            | _ => runFor M fuel h ctx ftest fupdate fbody (counter + 1)
  termination_by structural fuel _ _ _ _ _ _ => fuel

/-- The WhileStatement case (src lines 165-171): the body's result is
discarded entirely (no control-signal inspection), only the guard check
runs after each iteration. -/
def runWhile (M : Nat) : Nat → Heap → Nat → Ast → Ast → Nat → Heap × Outcome
  | 0, h, _, _, _, _ => (h, .oof)
  | fuel + 1, h, ctx, test, wbody, counter =>
    let (h, tr) := walk M fuel h ctx test
    match tr with
    | .thrown e => (h, .thrown e)
    | .oof => (h, .oof)
    | tr =>
      if outTruthy tr = false then (h, .ok .vUndefined)
      else
        let (h, br) := walk M fuel h ctx wbody
        match br with
        | .thrown e => (h, .thrown e)
        | .oof => (h, .oof)
        | _ =>
          if counter + 1 > M then (h, .thrown loopErr)
          else runWhile M fuel h ctx test wbody (counter + 1)
  termination_by structural fuel _ _ _ _ _ => fuel

/-- The key loop of the ForInStatement case (src lines 150-162): each
key is assigned to the target through setValue (as a string literal,
with no operator), then the body runs with the same control-signal
handling as the for-loop, continue again skipping the guard check. -/
def runForIn (M : Nat) :
    Nat → Heap → Nat → Ast → List String → Ast → Nat → Heap × Outcome
  | 0, h, _, _, _, _, _ => (h, .oof)
  | _, h, _, _, [], _, _ => (h, .ok .vUndefined)
  | fuel + 1, h, ctx, target, k :: ks, fbody, counter =>
    let (h, sr) := setValue M fuel h ctx target (some (.lit (.str k))) none
    match sr with
    | .thrown e => (h, .thrown e)
    | .oof => (h, .oof)
    | _ =>
      let (h, br) := walk M fuel h ctx fbody
      match br with
      | .thrown e => (h, .thrown e)
      | .oof => (h, .oof)
      | .cont => runForIn M fuel h ctx target ks fbody counter
      | .brk => (h, .ok .vUndefined)
      | .ret v => (h, .ret v)
      | _ =>
        if counter + 1 > M then (h, .thrown loopErr)
        else runForIn M fuel h ctx target ks fbody (counter + 1)
  termination_by structural fuel _ _ _ _ _ _ => fuel

/-- src setValue (lines 304-332): resolve the owning object and property
name (for identifiers, through objectForKey over the frame chain; for
member expressions, name before object), consult canSetProperty, then
apply one of the fixed operator cases; a denied write, and an operator
with no case, fall out of the function yielding undefined. -/
def setValue (M : Nat) :
    Nat → Heap → Nat → Ast → Option Ast → Option String → Heap × Outcome
  | 0, h, _, _, _, _ => (h, .oof)
  | fuel + 1, h, ctx, left, right, operator =>
    let step : Heap × (Outcome ⊕ (Value × String)) :=
      match left with
      | .ident n => (h, Sum.inr (objectForKey fuel h (.vRef ctx) n, n))
      | .member objE pName =>
        let (h, ov) := walk M fuel h ctx objE
        match ov with
        | .thrown e => (h, Sum.inl (Outcome.thrown e))
        | .oof => (h, Sum.inl Outcome.oof)
        | ov => (h, Sum.inr (outVal ov, pName))
      | .memberC objE pE =>
        let (h, pv) := walk M fuel h ctx pE
        match pv with
        | .thrown e => (h, Sum.inl (Outcome.thrown e))
        | .oof => (h, Sum.inl Outcome.oof)
        | pv =>
          let (h, ov) := walk M fuel h ctx objE
          match ov with
          | .thrown e => (h, Sum.inl (Outcome.thrown e))
          | .oof => (h, Sum.inl Outcome.oof)
          | ov => (h, Sum.inr (outVal ov, jsToString (outVal pv)))
      | _ =>
        -- any other left-hand side leaves name null in the source; the
        -- host coerces the null key to the string form (unreachable from
        -- parser output)
        (h, Sum.inr (Value.vRef ctx, "null"))
    match step with
    | (h, Sum.inl o) => (h, o)
    | (h, Sum.inr (object, name)) =>
      if canSetProperty fuel h object name then
        match operator with
        | none =>
          let (h, rv) := walkOpt M fuel h ctx right
          match rv with
          | .thrown e => (h, .thrown e)
          | .oof => (h, .oof)
          | rv => writeValue h object name (outVal rv)
        | some "=" =>
          let (h, rv) := walkOpt M fuel h ctx right
          match rv with
          | .thrown e => (h, .thrown e)
          | .oof => (h, .oof)
          | rv => writeValue h object name (outVal rv)
        | some "+=" =>
          let old := readForUpdate fuel h object name
          let (h, rv) := walkOpt M fuel h ctx right
          match rv with
          | .thrown e => (h, .thrown e)
          | .oof => (h, .oof)
          | rv => writeValue h object name (jsAdd old (outVal rv))
        | some "-=" =>
          let old := readForUpdate fuel h object name
          let (h, rv) := walkOpt M fuel h ctx right
          match rv with
          | .thrown e => (h, .thrown e)
          | .oof => (h, .oof)
          | rv => writeValue h object name (numBin (· - ·) old (outVal rv))
        | some "++" =>
          let old := toNumV (readForUpdate fuel h object name)
          let (h, wr) := writeValue h object name (numBin (· + ·) old (.vNum 1))
          match wr with
          | .thrown e => (h, .thrown e)
          | _ => (h, .ok old)
        | some "--" =>
          let old := toNumV (readForUpdate fuel h object name)
          let (h, wr) := writeValue h object name (numBin (· - ·) old (.vNum 1))
          match wr with
          | .thrown e => (h, .thrown e)
          | _ => (h, .ok old)
        | some _ => (h, .ok .vUndefined)
      else (h, .ok .vUndefined)
  termination_by structural fuel _ _ _ _ _ => fuel

end

/-- src safeEval (lines 15-19): create a fresh frame delegating to the
embedder-supplied parent scope, evaluate the tree in it, and unwrap any
control signal from the final value. -/
def safeEval (M fuel : Nat) (h : Heap) (parent : Option Nat) (tree : Ast) : Heap × Outcome :=
  let (h, r) := alloc h { props := [], proto := parent }
  let (h, res) := walk M fuel h r tree
  (h, finalValue res)

/-! ### Concrete inputs used by the claim checks

Programs are given as already-hoisted trees, the form the evaluator
receives (the spec's §6 hoisting pass is an external collaborator), and
heaps play the role of the embedder-supplied parent scope of the
evaluate entry point. -/

/-- A single empty root frame. -/
def h0 : Heap := [⟨[], none⟩]

/-- Guest program `while (true) { break }`. -/
def whileBrkProg : Ast := .program [.whileStmt (.lit (.bool true)) (.block [.brkStmt])]

/-- Guest program `while (true) { return 5 }`. -/
def whileRetProg : Ast := .program [.whileStmt (.lit (.bool true)) (.block [.retStmt (some (.lit (.num 5)))])]

/-- Guest program `while (true) { }`. -/
def loopProg : Ast := .program [.whileStmt (.lit (.bool true)) (.block [])]

/-- Guest program `try { while (true) { } } catch (e) { }`. -/
def tryLoopProg : Ast := .program [
  .tryStmt (.block [.whileStmt (.lit (.bool true)) (.block [])]) (some ("e", .block [])) none]

/-- Guest program `function f(a,b){ return b }  var b = 7;  f(1)`. -/
def outerLeakProg : Ast := .program [
  .funcDecl "f" ["a", "b"] (.block [.retStmt (some (.ident "b"))]),
  .varDecl [("b", some (.lit (.num 7)))],
  .exprStmt (.callExpr (.ident "f") [.lit (.num 1)])]

/-- Guest program `function f(a,b){ return b }  f(1)` (no outer b). -/
def noOuterProg : Ast := .program [
  .funcDecl "f" ["a", "b"] (.block [.retStmt (some (.ident "b"))]),
  .exprStmt (.callExpr (.ident "f") [.lit (.num 1)])]

/-- Guest program `var x = 0; if ((x = x + 1) < 0) { }` — a falsy test
with a side effect and no alternate branch. -/
def ifFallProg : Ast := .program [
  .varDecl [("x", some (.lit (.num 0)))],
  .ifStmt
    (.binaryExpr "<"
      (.assignExpr "=" (.ident "x") (.binaryExpr "+" (.ident "x") (.lit (.num 1))))
      (.lit (.num 0)))
    (.block []) none]

/-- Guest program `function g(){ y = 3 }  g()` — an assignment to an
identifier bound nowhere, made inside a call frame. -/
def globAssignProg : Ast := .program [
  .funcDecl "g" [] (.block [.exprStmt (.assignExpr "=" (.ident "y") (.lit (.num 3)))]),
  .exprStmt (.callExpr (.ident "g") [])]

/-- Guest program `function f(){ return this }  f()`. -/
def thisNullProg : Ast := .program [
  .funcDecl "f" [] (.block [.retStmt (some .thisExpr)]),
  .exprStmt (.callExpr (.ident "f") [])]

/-- Guest program `try { 1 ** 2 } catch (e) { }` — an unsupported binary
operator inside guest exception handling. -/
def tryUnsupProg : Ast := .program [
  .tryStmt (.block [.exprStmt (.binaryExpr "**" (.lit (.num 1)) (.lit (.num 2)))])
    (some ("e", .block [])) none]

/-- Embedder scope for the receiver-binding check: a root frame exposing
`o`, an object whose `m` property is a closure returning `this`. -/
def h9 : Heap := [
  ⟨[⟨"o", .vRef 1, true⟩], none⟩,
  ⟨[⟨"m", .vClosure [] (.block [.retStmt (some .thisExpr)]) 0, true⟩], none⟩]

/-- Embedder scope for the denied-write checks: the root frame exposes
`o`, an object owning `p` as an enumerable entry, whose prototype owns
`p` as a non-enumerable entry. -/
def h7 : Heap := [
  ⟨[⟨"o", .vRef 1, true⟩], none⟩,
  ⟨[⟨"p", .vNum 1, true⟩], some 2⟩,
  ⟨[⟨"p", .vNum 9, false⟩], none⟩]

/-! ### Claim checks -/

/-- C1: the claim says a while-loop inspects the body's control signal
(Continue resumes, Break exits and is swallowed, Return exits and
propagates).  The code instead discards the while-body's result
entirely (src lines 165-171): with a ceiling of 2, `while(true){break}`
does not exit at the break, and `while(true){return 5}` does not return
5 — both rerun the body until the loop guard's failure aborts the
evaluation. -/
theorem c1_while_discards_signals :
    (walk 2 100 h0 0 whileBrkProg).2 = .thrown loopErr ∧
    (walk 2 100 h0 0 whileRetProg).2 = .thrown loopErr :=
  ⟨rfl, rfl⟩

/-- C2 counterexample: the claim says a loop-guard failure aborts the
entire evaluate call and cannot be intercepted by any guest try/catch.
With ceiling 2, the very same runaway loop that aborts on its own is
intercepted by an enclosing guest try/catch, and the whole program
completes normally with undefined. -/
theorem c2_counterexample :
    (walk 2 100 h0 0 loopProg).2 = .thrown loopErr ∧
    (walk 2 100 h0 0 tryLoopProg).2 = .ok .vUndefined :=
  ⟨rfl, rfl⟩

/-- C2 amended: exceeding the ceiling throws a host-level error that
aborts the evaluation when nothing catches it, but a guest try/catch
enclosing the loop intercepts it like any other host error (the
TryStatement case, src lines 173-187, catches every host failure). -/
theorem c2_guard_error_is_catchable :
    (walk 2 100 h0 0 loopProg).2 = .thrown loopErr ∧
    (walk 2 100 h0 0 (.tryStmt (.block [.whileStmt (.lit (.bool true)) (.block [])])
        (some ("e", .block [])) none)).2 = .ok .vUndefined :=
  ⟨rfl, rfl⟩

/-- C4 counterexample: the claim says an unsupplied trailing parameter
evaluates to undefined regardless of outer bindings of the same name.
In `function f(a,b){return b} var b = 7; f(1)` the call returns 7, not
undefined: getFunction (src lines 384-399) iterates the supplied
arguments only, so `b` is never bound in the call frame and the outer
binding shows through the scope chain. -/
theorem c4_counterexample :
    (walk 1000 100 h0 0 outerLeakProg).2 = .ok (.vNum 7) ∧
    (walk 1000 100 h0 0 outerLeakProg).2 ≠ .ok .vUndefined := by
  refine ⟨rfl, ?_⟩
  intro hcontr
  have hv : Outcome.ok (.vNum 7) = Outcome.ok .vUndefined := by
    calc Outcome.ok (.vNum 7) = (walk 1000 100 h0 0 outerLeakProg).2 := rfl
    _ = Outcome.ok .vUndefined := hcontr
  simp at hv

/-- C4 amended: an unsupplied trailing parameter is left unbound in the
call frame; it evaluates to undefined when no enclosing scope binds the
name, but an enclosing binding of the same name remains visible through
the scope chain. -/
theorem c4_amended_unbound_params :
    (walk 1000 100 h0 0 noOuterProg).2 = .ok .vUndefined ∧
    (walk 1000 100 h0 0 outerLeakProg).2 = .ok (.vNum 7) :=
  ⟨rfl, rfl⟩

/-- C5: the claim says an if-statement evaluates its test exactly once
and, on a falsy test with no alternate, performs no further evaluation.
The IfStatement case is missing its final break and falls through into
the ForStatement case (src lines 117-138), which re-walks the very same
test as its loop condition: after `var x = 0; if ((x = x + 1) < 0) { }`
the counter x is 2, witnessing a second evaluation of the test. -/
theorem c5_if_falls_through_to_for :
    (walk 1000 100 h0 0 ifFallProg).2 = .ok .vUndefined ∧
    getOwn (getObj (walk 1000 100 h0 0 ifFallProg).1 0).props "x" =
      some ⟨"x", .vNum 2, true⟩ :=
  ⟨rfl, rfl⟩

/-- Helper for the loop-guard claim: in the for-loop runner, a body that
ends every iteration in a Continue signal re-enters the loop through the
host continue statement, which skips infinite.check() — the state and
the counter never change, so for every fuel the run is still unfinished
(it neither aborts with the guard failure nor terminates). -/
theorem runFor_continue_starves_guard :
    ∀ (fuel M : Nat) (h : Heap) (ctx c : Nat),
      (runFor M fuel h ctx (some (.lit (.bool true))) none (some .contStmt) c).2 = .oof := by
  intro fuel
  induction fuel using Nat.strong_induction_on with
  | _ fuel ih =>
    match fuel with
    | 0 => intro M h ctx c; rfl
    | 1 => intro M h ctx c; rfl
    | 2 => intro M h ctx c; rfl
    | (f + 3) =>
      intro M h ctx c
      have hstep :
          runFor M (f + 3) h ctx (some (.lit (.bool true))) none (some .contStmt) c =
          runFor M (f + 2) h ctx (some (.lit (.bool true))) none (some .contStmt) c := by
        conv_lhs => rw [runFor]
        simp only [walkOpt, walk, litVal, outTruthy, truthy]
        simp
      rw [hstep]
      exact ih (f + 2) (by omega) M h ctx c

/-- C6: the claim says every for-loop increments the loop-guard counter
once per iteration, so a body running more often than the ceiling aborts
even when every iteration ends in Continue.  In the code the host
continue statement in the ForStatement case (src lines 129-136) jumps
over infinite.check(): for `for(; true; ) { continue }` the counter is
never incremented and, for every ceiling, every starting counter value
and every fuel, evaluation never finishes — in particular it never
aborts with the guard failure. -/
theorem c6_continue_never_aborts :
    ∀ (M fuel : Nat) (h : Heap) (ctx : Nat),
      (walk M fuel h ctx (.forStmt none (some (.lit (.bool true))) none .contStmt)).2 = .oof := by
  intro M fuel h ctx
  cases fuel with
  | zero => rfl
  | succ f =>
    have hstep :
        walk M (f + 1) h ctx (.forStmt none (some (.lit (.bool true))) none .contStmt) =
        runFor M f h ctx (some (.lit (.bool true))) none (some .contStmt) 0 := by
      conv_lhs => rw [walk]
      simp only [walkOpt]
    rw [hstep]
    exact runFor_continue_starves_guard f M h ctx 0

/-- C8 counterexample: the claim says an unsupported-construct failure is
never catchable by a guest try/catch.  A node of an unrecognized kind
does throw the explicit unsupported-construct error, but placing it
inside a guest try/catch intercepts that error and the program completes
normally. -/
theorem c8_counterexample :
    (walk 1000 10 h0 0 (.unsupported "WithStatement")).2 = .thrown unsupportedErr ∧
    (walk 1000 100 h0 0 (.program [.tryStmt (.block [.unsupported "WithStatement"])
        (some ("e", .block [])) none])).2 = .ok .vUndefined :=
  ⟨rfl, rfl⟩

/-- C8 amended: a node kind (or operator) outside the supported set
fails immediately, in any state, with the explicit unsupported-construct
error, a host-level error; the failure propagates like any other host
error, so a guest try/catch enclosing the construct catches it. -/
theorem c8_unsupported_is_catchable :
    (∀ (M fuel : Nat) (h : Heap) (ctx : Nat) (kind : String),
        walk M (fuel + 1) h ctx (.unsupported kind) = (h, .thrown unsupportedErr)) ∧
    (walk 1000 10 h0 0 (.binaryExpr "**" (.lit (.num 1)) (.lit (.num 2)))).2 =
      .thrown unsupportedErr ∧
    (walk 1000 100 h0 0 tryUnsupProg).2 = .ok .vUndefined := by
  exact ⟨fun M fuel h ctx kind => rfl, rfl, rfl⟩

/-! Heap bookkeeping lemmas for the frame-construction and
assignment-placement checks. -/

theorem getOwn_setOwn_ne (ps : List Prp) (kw k : String) (v : Value) (hk : kw ≠ k) :
    getOwn (setOwn ps kw v) k = getOwn ps k := by
  induction ps with
  | nil => simp [setOwn, getOwn, hk]
  | cons p pt ih =>
    by_cases hp : p.name = kw
    · simp [setOwn, hp, getOwn, hk]
    · simp only [setOwn, hp, if_false, getOwn]
      by_cases hpk : p.name = k
      · simp [hpk]
      · simp [hpk, ih]

theorem getObj_append (h h2 : Heap) (r : Nat) (hr : r < h.length) :
    getObj (h ++ h2) r = getObj h r := by
  induction h generalizing r with
  | nil => simp at hr
  | cons a t ih =>
    cases r with
    | zero => rfl
    | succ m => exact ih m (by simpa using hr)

theorem getObj_append_self (h : Heap) (o : Obj) : getObj (h ++ [o]) h.length = o := by
  induction h with
  | nil => rfl
  | cons a t ih => simpa using ih

theorem getObj_set_self (h : Heap) (r : Nat) (o : Obj) (hr : r < h.length) :
    getObj (setObj h r o) r = o := by
  induction h generalizing r with
  | nil => simp at hr
  | cons a t ih =>
    cases r with
    | zero => rfl
    | succ m => exact ih m (by simpa using hr)

theorem getObj_writeProp_self (h : Heap) (r : Nat) (k : String) (v : Value)
    (hr : r < h.length) :
    getObj (writeProp h r k v) r =
      { getObj h r with props := setOwn (getObj h r).props k v } :=
  getObj_set_self h r _ hr

theorem length_writeProp (h : Heap) (r : Nat) (k : String) (v : Value) :
    (writeProp h r k v).length = h.length := by
  simp [writeProp, setObj]

theorem bindParams_preserves (params : List String) (args : List Value) (h : Heap)
    (r : Nat) (k : String) (hr : r < h.length) (hk : k ∉ params) :
    getOwn (getObj (bindParams h r params args) r).props k =
      getOwn (getObj h r).props k := by
  induction params generalizing args h with
  | nil => cases args <;> rfl
  | cons p ps ih =>
    cases args with
    | nil => rfl
    | cons a as' =>
      have hk2 : k ∉ ps := fun hmem => hk (List.mem_cons_of_mem _ hmem)
      have hkp : p ≠ k := fun he => hk (he ▸ List.mem_cons_self p ps)
      show getOwn (getObj (bindParams (if p = "" then h else writeProp h r p a) r ps as') r).props k
          = getOwn (getObj h r).props k
      by_cases hp : p = ""
      · rw [if_pos hp]
        exact ih as' h hr hk2
      · rw [if_neg hp]
        rw [ih as' (writeProp h r p a) (by rw [length_writeProp]; exact hr) hk2]
        rw [getObj_writeProp_self h r p a hr]
        exact getOwn_setOwn_ne _ _ _ _ hkp

/-- A fully materialised scope chain: the frame references reachable
from the start frame through parent links, in order, ending at the root
frame (the one with no parent).  This is the spec's picture of the scope
chain (§3), used to state the corrected assignment-placement
behaviour. -/
inductive FrameChain (h : Heap) : Nat → List Nat → Prop where
  | root {r : Nat} : (getObj h r).proto = none → FrameChain h r [r]
  | step {r rp : Nat} {rs : List Nat} :
      (getObj h r).proto = some rp → FrameChain h rp rs → FrameChain h r (r :: rs)

theorem FrameChain.ne_nil {h : Heap} {r : Nat} {rs : List Nat}
    (hc : FrameChain h r rs) : rs ≠ [] := by
  cases hc <;> simp

/-- The frame of a chain that an identifier assignment resolves to: the
first frame holding the name as an own entry (enumerable or not), and
otherwise the last frame of the chain — the root, not the innermost. -/
def chainTarget (h : Heap) : List Nat → String → Nat
  | [], _ => 0
  | r :: rs, k => if rs.isEmpty || hasOwnProperty h r k then r else chainTarget h rs k

theorem isEmpty_false_of_chain {h : Heap} {r : Nat} {rs : List Nat}
    (hc : FrameChain h r rs) : rs.isEmpty = false := by
  cases hc <;> rfl

theorem objectForKey_chain (h : Heap) (k : String) (r : Nat) (rs : List Nat)
    (hc : FrameChain h r rs) :
    ∀ fuel : Nat, rs.length ≤ fuel →
      objectForKey fuel h (.vRef r) k = .vRef (chainTarget h rs k) := by
  induction hc with
  | @root r hproto =>
    intro fuel hf
    cases fuel with
    | zero => simp at hf
    | succ f =>
      rw [objectForKey]
      simp [getPrototypeOf, hproto, truthy, chainTarget]
  | @step r rp rs hproto hcp ih =>
    intro fuel hf
    cases fuel with
    | zero => simp at hf
    | succ f =>
      rw [objectForKey]
      rw [chainTarget]
      rw [isEmpty_false_of_chain hcp]
      simp only [getPrototypeOf, hproto, truthy, valueHasOwn, Bool.false_or]
      by_cases hown : hasOwnProperty h r k
      · simp [hown]
      · simp only [hown, Bool.false_or, if_false]
        exact ih f (by simpa using hf)

theorem chainTarget_no_own (h : Heap) (k : String) {r : Nat} {rs : List Nat}
    (hc : FrameChain h r rs) :
    hasOwnProperty h (chainTarget h rs k) k = false →
    (getObj h (chainTarget h rs k)).proto = none := by
  induction hc with
  | @root r hproto =>
    intro _
    simpa [chainTarget] using hproto
  | @step r rp rs hproto hcp ih =>
    rw [chainTarget, isEmpty_false_of_chain hcp]
    by_cases hown : hasOwnProperty h r k
    · simp [hown]
    · simp only [hown, Bool.false_or, if_false]
      exact ih

/-- canSetProperty at a frame that owns the name (and the name is not
the prototype-link name): the own entry's enumerability decides. -/
theorem canSet_own (f : Nat) (h : Heap) (t : Nat) (k : String)
    (hk : k ≠ "__proto__") (hown : hasOwnProperty h t k = true) :
    canSetProperty (f + 1) h (.vRef t) k = propertyIsEnumerable h t k := by
  rw [canSetProperty]
  simp [hk, isPrimative, looseNeqNull, valueHasOwn, hown, valueIsEnum]

/-- canSetProperty at a rootless frame that does not own the name: the
recursion reaches the null prototype and grants the write. -/
theorem canSet_fresh (f : Nat) (h : Heap) (t : Nat) (k : String)
    (hk : k ≠ "__proto__") (hown : hasOwnProperty h t k = false)
    (hproto : (getObj h t).proto = none) :
    canSetProperty (f + 2) h (.vRef t) k = true := by
  rw [canSetProperty]
  simp only [hk, isPrimative, looseNeqNull, valueHasOwn, hown,
    getPrototypeOf, hproto]
  rw [canSetProperty]
  simp [hk, isPrimative, looseNeqNull]

/-- C3 counterexample: in `function g(){ y = 3 }  g()` the assignment to
the fresh name y executes while the innermost (current) frame is the
call frame, heap ref 1 (identified by its own `this` binding and its
parent link to the root frame 0).  The claim requires the binding to be
created in that innermost frame; the code creates it in the outermost
(root) frame and leaves the call frame without an own entry for y. -/
theorem c3_counterexample :
    getOwn (getObj (walk 1000 100 h0 0 globAssignProg).1 0).props "y" =
      some ⟨"y", .vNum 3, true⟩ ∧
    getOwn (getObj (walk 1000 100 h0 0 globAssignProg).1 1).props "y" = none ∧
    (getObj (walk 1000 100 h0 0 globAssignProg).1 1).proto = some 0 ∧
    getOwn (getObj (walk 1000 100 h0 0 globAssignProg).1 1).props "this" =
      some ⟨"this", .vNull, true⟩ :=
  ⟨rfl, rfl, rfl, rfl⟩

/-- C3 amended: assignment to a simple identifier walks outward through
the frame chain to the first frame holding the name as an own entry,
enumerable or not.  If that entry is enumerable the write happens there;
if it is non-enumerable the assignment is a silent no-op.  If no frame
in the chain owns the name, the binding is created in the chain's LAST
frame (the outermost root), not in the innermost frame. -/
theorem c3_assignment_placement
    (M f : Nat) (h : Heap) (ctx : Nat) (rs : List Nat) (x : String) (v : Lit)
    (hc : FrameChain h ctx rs) (hx : x ≠ "__proto__") (hf : rs.length + 1 ≤ f) :
    walk M (f + 2) h ctx (.assignExpr "=" (.ident x) (.lit v)) =
      (if hasOwnProperty h (chainTarget h rs x) x then
         if propertyIsEnumerable h (chainTarget h rs x) x then
           (writeProp h (chainTarget h rs x) x (litVal v), Outcome.ok (litVal v))
         else (h, Outcome.ok .vUndefined)
       else (writeProp h (chainTarget h rs x) x (litVal v), Outcome.ok (litVal v))) := by
  have hlen : 1 ≤ rs.length := List.length_pos.mpr hc.ne_nil
  obtain ⟨g, rfl⟩ : ∃ g, f = g + 2 := ⟨f - 2, by omega⟩
  have hobj := objectForKey_chain h x ctx rs hc (g + 2) (by omega)
  have hstep : walk M (g + 4) h ctx (.assignExpr "=" (.ident x) (.lit v))
      = setValue M (g + 3) h ctx (.ident x) (some (.lit v)) (some "=") := by
    conv_lhs => rw [walk]
  rw [hstep]
  conv_lhs => rw [setValue]
  simp only [hobj, walkOpt, walk, litVal]
  by_cases hown : hasOwnProperty h (chainTarget h rs x) x
  · rw [canSet_own (g + 1) h _ x hx hown]
    by_cases henum : propertyIsEnumerable h (chainTarget h rs x) x
    · simp only [hown, henum, writeValue, if_true]
      rfl
    · simp [hown, henum]
  · have hroot := chainTarget_no_own h x hc (by simpa using hown)
    rw [canSet_fresh g h _ x hx (by simpa using hown) hroot]
    simp only [hown, writeValue, if_true, if_false, Bool.false_eq_true]
    rfl

/-- The frame chain instantiating the amended assignment claim: the
current frame 0 is a child of the root frame 1, and only the root owns
x. -/
def hc3w : Heap := [⟨[], some 1⟩, ⟨[⟨"x", .vNum 0, true⟩], none⟩]

/-- Witness for the amended assignment claim: on the two-frame chain
the write to x lands in the root frame that owns it. -/
theorem c3_witness :
    walk 1000 6 hc3w 0 (.assignExpr "=" (.ident "x") (.lit (.num 5))) =
      (writeProp hc3w 1 "x" (.vNum 5), .ok (.vNum 5)) := by
  have h := c3_assignment_placement 1000 4 hc3w 0 [0, 1] "x" (.num 5)
    (FrameChain.step rfl (FrameChain.root rfl)) (by decide) (by decide)
  simpa using h

/-- C7 counterexample: the claim counts a write to a property existing
as a non-enumerable entry somewhere in the prototype chain as a denied
mutation, required to leave the property's value unchanged.  Here o owns
p as an enumerable entry while o's prototype (ref 2) owns p
non-enumerably: p does exist as a non-enumerable entry in the chain, yet
`o.p = 2` is permitted by canSetProperty (which only consults the
closest own occurrence) and changes the value from 1 to 2. -/
theorem c7_counterexample :
    getOwn (getObj h7 2).props "p" = some ⟨"p", .vNum 9, false⟩ ∧
    (getObj h7 1).proto = some 2 ∧
    (walk 1000 20 h7 0 (.assignExpr "=" (.member (.ident "o") "p") (.lit (.num 2)))).2 =
      .ok (.vNum 2) ∧
    getOwn (getObj (walk 1000 20 h7 0
        (.assignExpr "=" (.member (.ident "o") "p") (.lit (.num 2)))).1 1).props "p" =
      some ⟨"p", .vNum 2, true⟩ :=
  ⟨rfl, rfl, rfl, rfl⟩

/-- C7 amended: a mutation the guard denies — a write to the
prototype-link name, to a property of a primitive receiver, or to a
property whose closest own occurrence along the chain is non-enumerable
(all exactly the cases where canSetProperty is false) — is a silent
no-op: the heap is unchanged and no failure is raised, the assignment
expression yielding undefined. -/
theorem c7_denied_write_is_silent_noop
    (M f : Nat) (h : Heap) (ctx : Nat) (o p : String) (rhs : Ast)
    (hdeny : canSetProperty (f + 1) h (getProp f h ctx o) p = false) :
    walk M (f + 3) h ctx (.assignExpr "=" (.member (.ident o) p) rhs) =
      (h, .ok .vUndefined) := by
  have hstep : walk M (f + 3) h ctx (.assignExpr "=" (.member (.ident o) p) rhs)
      = setValue M (f + 2) h ctx (.member (.ident o) p) (some rhs) (some "=") := by
    conv_lhs => rw [walk]
  rw [hstep]
  conv_lhs => rw [setValue]
  simp only [walk, outVal]
  simp [hdeny]

/-- Witness for the denied-write claim: a write to the prototype-link
name through a member expression is denied and leaves the heap
unchanged. -/
theorem c7_witness :
    canSetProperty 6 h7 (getProp 5 h7 0 "o") "__proto__" = false ∧
    walk 1000 8 h7 0 (.assignExpr "=" (.member (.ident "o") "__proto__") (.lit (.num 2))) =
      (h7, .ok .vUndefined) :=
  ⟨rfl, c7_denied_write_is_silent_noop 1000 5 h7 0 "o" "__proto__" (.lit (.num 2)) rfl⟩

/-- C9: inside an invoked closure, `this` is bound in the fresh call
frame to the call receiver when one is passed (member-style invocation),
and to an explicit null when the closure is invoked without a receiver —
the case in which the host's apply would have supplied its ambient
global object, which getFunction (src lines 386-390) detects and maps to
null.  The two concrete runs show the receiver case (a member call
returning its receiver) and the bare-call case (returning null, never a
host object). -/
theorem c9_this_binding :
    (∀ (h : Heap) (cap : Nat) (recv : Option Value) (args : List Value)
        (params : List String), "this" ∉ params →
        getOwn (getObj (callFrame h cap recv args params).1
            (callFrame h cap recv args params).2).props "this" =
          some ⟨"this", recv.getD .vNull, true⟩) ∧
    (walk 1000 100 h9 0 (.callExpr (.member (.ident "o") "m") [])).2 = .ok (.vRef 1) ∧
    (walk 1000 100 h0 0 thisNullProg).2 = .ok .vNull := by
  refine ⟨?_, rfl, rfl⟩
  intro h cap recv args params hk
  have hthis : (match recv with | none => Value.vNull | some v => v) = recv.getD .vNull := by
    cases recv <;> rfl
  simp only [callFrame, alloc]
  rw [bindParams_preserves params args _ h.length "this"
    (by simp [length_writeProp]; omega) hk]
  rw [getObj_writeProp_self _ h.length "arguments" _
    (by simp [length_writeProp]; omega)]
  rw [getObj_append _ _ h.length (by simp [length_writeProp])]
  rw [getObj_writeProp_self _ h.length "this" _ (by simp)]
  rw [getObj_append_self]
  simp [setOwn, getOwn, hthis]

/-- Witness for the receiver-binding claim at a concrete invocation:
a frame built for a call with receiver 3 binds `this` to 3. -/
theorem c9_witness :
    getOwn (getObj (callFrame h0 0 (some (.vNum 3)) [.vNum 1] ["a"]).1
        (callFrame h0 0 (some (.vNum 3)) [.vNum 1] ["a"]).2).props "this" =
      some ⟨"this", .vNum 3, true⟩ := by
  have h := c9_this_binding.1 h0 0 (some (.vNum 3)) [.vNum 1] ["a"] (by decide)
  simpa using h

/-- C10: the guest `==` operator is compiled to the host's strict
equality — evaluating `l == r` is identical to evaluating `l === r` in
every state and at every fuel — while `!=` uses the host's loose
inequality, so the two are not complements: on the operands 1 and "1"
both `==` and `!=` evaluate to false. -/
theorem c10_double_equals_is_strict :
    (∀ (M fuel : Nat) (h : Heap) (ctx : Nat) (l r : Ast),
        walk M fuel h ctx (.binaryExpr "==" l r) = walk M fuel h ctx (.binaryExpr "===" l r)) ∧
    (walk 1000 10 h0 0 (.binaryExpr "==" (.lit (.num 1)) (.lit (.str "1")))).2 =
      .ok (.vBool false) ∧
    (walk 1000 10 h0 0 (.binaryExpr "!=" (.lit (.num 1)) (.lit (.str "1")))).2 =
      .ok (.vBool false) := by
  refine ⟨?_, rfl, rfl⟩
  intro M fuel h ctx l r
  cases fuel with
  | zero => rfl
  | succ f => rfl

end NotEvil


